import Mathlib

set_option maxHeartbeats 1000000
set_option maxRecDepth 4000

/-
Verification development for the `minutes` meeting-recording daemon.

Shallow embedding of the core subsystems described in the specification:
the OGG page writer and CRC32 (src/audio/encoder.rs), the audio mixer
(src/audio/mixer.rs), the transcript segment merge pass
(src/transcription/pipeline.rs), the PipeWire target resolution parsers
(src/audio/pipewire_capture.rs), and the daemon command handlers
(src/daemon/service.rs).

Machine integers (u8/u32/u64/usize) are embedded as `Nat` with explicit
`% 2 ^ w` where Rust wrapping/casting matters.  Byte buffers are
`List Nat` of values `< 256`.  Filesystem, subprocess and database
effects are embedded as explicit oracle records describing the outcome
of each external call, threaded through otherwise faithful translations
of the Rust control flow.  `f32`/`f64` sample and time arithmetic is
embedded over `ℝ` (for the DSP functions, whose spec properties are
real-analytic) and `ℚ` (for timestamps, where only exact comparisons
appear).
-/

namespace Minutes

/-! ## OGG page writer and CRC32 (src/audio/encoder.rs) -/

/-- Little-endian byte rendering of `n` over `w` bytes, as in Rust
`to_le_bytes` on an unsigned integer of width `w` bytes. -/
def leBytes (n w : Nat) : List Nat :=
  (List.range w).map (fun i => n / 256 ^ i % 256)

/-- One MSB-first CRC bit step with polynomial `0x04C11DB7` over `u32`
arithmetic, as in the inner loop of `generate_crc_table`:
`if r & 0x80000000 != 0 { r = (r << 1) ^ 0x04c11db7 } else { r <<= 1 }`. -/
def crcBitStep (r : Nat) : Nat :=
  if r &&& 0x80000000 ≠ 0 then ((r <<< 1) ^^^ 0x04c11db7) % 2 ^ 32
  else (r <<< 1) % 2 ^ 32

/-- Entry `i` of the CRC table built by `generate_crc_table`: eight bit
steps starting from `(i as u32) << 24`. -/
def crcEntry (i : Nat) : Nat := crcBitStep^[8] ((i <<< 24) % 2 ^ 32)

/-- The 256-entry CRC lookup table of `generate_crc_table`. -/
def crcTable : List Nat := (List.range 256).map crcEntry

/-- One byte step of `ogg_crc`:
`crc = (crc << 8) ^ CRC_TABLE[((crc >> 24) as u8 ^ byte) as usize]`. -/
def crcByteStep (crc b : Nat) : Nat :=
  ((crc <<< 8) % 2 ^ 32) ^^^ crcTable.getD ((crc >>> 24) % 256 ^^^ b) 0

/-- The header copy made inside `ogg_crc`: bytes 22..26 (the CRC field)
are overwritten with zeroes when the header is long enough. -/
def zeroCrcField (h : List Nat) : List Nat :=
  if 26 ≤ h.length then h.take 22 ++ [0, 0, 0, 0] ++ h.drop 26 else h

/-- `ogg_crc(header, data)`: fold the byte step over the header with its
CRC field zeroed, then over the payload, starting from 0. -/
def ogg_crc (header data : List Nat) : Nat :=
  List.foldl crcByteStep (List.foldl crcByteStep 0 (zeroCrcField header)) data

/-- Segment count computed by `write_ogg_page`:
`let segment_count = (data.len() + 254) / 255`. -/
def oggSegmentCount (len : Nat) : Nat := (len + 254) / 255

/-- The segment (lacing) table written by `write_ogg_page`: `count`
iterations of `seg_size = remaining.min(255); remaining -= seg_size`. -/
def oggSegmentLanes : Nat → Nat → List Nat
  | 0, _ => []
  | k + 1, remaining =>
      min remaining 255 :: oggSegmentLanes k (remaining - min remaining 255)

/-- ASCII bytes of the `"OggS"` capture pattern. -/
def oggCapturePattern : List Nat := [0x4F, 0x67, 0x67, 0x53]

/-- The page header built by `write_ogg_page` before the CRC is patched
in: capture pattern, version 0, header type, LE granule position, LE
serial, LE page sequence number (`page_no as u32`), four zero CRC
placeholder bytes, the segment count byte (`segment_count as u8`) and
the segment table. -/
def oggPageHeaderPreCrc (serial granule headerType pageNo : Nat)
    (data : List Nat) : List Nat :=
  oggCapturePattern ++ [0] ++ [headerType] ++ leBytes granule 8 ++
    leBytes serial 4 ++ leBytes (pageNo % 2 ^ 32) 4 ++ leBytes 0 4 ++
    [oggSegmentCount data.length % 256] ++
    oggSegmentLanes (oggSegmentCount data.length) data.length

/-- `write_ogg_page`: build the header, compute the CRC over it (CRC
field zeroed) plus the payload, splice the CRC into bytes 22..26, and
emit header followed by payload. -/
def write_ogg_page (serial granule headerType pageNo : Nat)
    (data : List Nat) : List Nat :=
  let header := oggPageHeaderPreCrc serial granule headerType pageNo data
  let crc := ogg_crc header data
  header.take 22 ++ leBytes crc 4 ++ header.drop 26 ++ data

/-! ### Facts about the segment table -/

theorem leBytes_length (n w : Nat) : (leBytes n w).length = w := by
  simp [leBytes]

theorem oggSegmentLanes_eq_replicate :
    ∀ k n, 255 * k < n → n ≤ 255 * (k + 1) →
      oggSegmentLanes (k + 1) n = List.replicate k 255 ++ [n - 255 * k] := by
  intro k
  induction k with
  | zero =>
      intro n h1 h2
      have hmin : min n 255 = n := by omega
      simp [oggSegmentLanes, hmin]
  | succ k ih =>
      intro n h1 h2
      have hmin : min n 255 = 255 := by omega
      rw [oggSegmentLanes, hmin, ih (n - 255) (by omega) (by omega)]
      rw [List.replicate_succ]
      simp only [List.cons_append]
      have harith : n - 255 - 255 * k = n - 255 * (k + 1) := by omega
      rw [harith]

theorem oggPageHeaderPreCrc_decompose (serial granule headerType pageNo : Nat)
    (data : List Nat) :
    oggPageHeaderPreCrc serial granule headerType pageNo data =
      (oggCapturePattern ++ [0] ++ [headerType] ++ leBytes granule 8 ++
        leBytes serial 4 ++ leBytes (pageNo % 2 ^ 32) 4 ++ leBytes 0 4) ++
      ([oggSegmentCount data.length % 256] ++
        oggSegmentLanes (oggSegmentCount data.length) data.length) := by
  simp [oggPageHeaderPreCrc, List.append_assoc]

theorem oggPageHeaderPreCrc_take_22 (serial granule headerType pageNo : Nat)
    (data : List Nat) :
    (oggPageHeaderPreCrc serial granule headerType pageNo data).take 22 =
      oggCapturePattern ++ [0] ++ [headerType] ++ leBytes granule 8 ++
        leBytes serial 4 ++ leBytes (pageNo % 2 ^ 32) 4 := by
  have h : (oggCapturePattern ++ [0] ++ [headerType] ++ leBytes granule 8 ++
      leBytes serial 4 ++ leBytes (pageNo % 2 ^ 32) 4).length = 22 := by
    simp [oggCapturePattern, leBytes_length]
  calc (oggPageHeaderPreCrc serial granule headerType pageNo data).take 22
      = ((oggCapturePattern ++ [0] ++ [headerType] ++ leBytes granule 8 ++
          leBytes serial 4 ++ leBytes (pageNo % 2 ^ 32) 4) ++
         (leBytes 0 4 ++ ([oggSegmentCount data.length % 256] ++
           oggSegmentLanes (oggSegmentCount data.length) data.length))).take 22 := by
        rw [oggPageHeaderPreCrc_decompose]
        simp [List.append_assoc]
    _ = _ := List.take_left' h

theorem oggPageHeaderPreCrc_drop_26 (serial granule headerType pageNo : Nat)
    (data : List Nat) :
    (oggPageHeaderPreCrc serial granule headerType pageNo data).drop 26 =
      [oggSegmentCount data.length % 256] ++
        oggSegmentLanes (oggSegmentCount data.length) data.length := by
  have h : (oggCapturePattern ++ [0] ++ [headerType] ++ leBytes granule 8 ++
      leBytes serial 4 ++ leBytes (pageNo % 2 ^ 32) 4 ++ leBytes 0 4).length = 26 := by
    simp [oggCapturePattern, leBytes_length]
  calc (oggPageHeaderPreCrc serial granule headerType pageNo data).drop 26
      = ((oggCapturePattern ++ [0] ++ [headerType] ++ leBytes granule 8 ++
          leBytes serial 4 ++ leBytes (pageNo % 2 ^ 32) 4 ++ leBytes 0 4) ++
         ([oggSegmentCount data.length % 256] ++
           oggSegmentLanes (oggSegmentCount data.length) data.length)).drop 26 := by
        rw [oggPageHeaderPreCrc_decompose]
    _ = _ := List.drop_left' h

/-- C2 counterexample: the claim "a zero-length payload produces exactly
one segment entry of length 0" and "an exactly-255-aligned payload
includes a trailing zero-length lane" are both false of
`write_ogg_page`.  With `segment_count = (len + 254) / 255`, an empty
payload emits a segment count of 0 and an empty lacing table (the page
is exactly 27 bytes, its segment-count byte is 0), and a 255-byte
payload emits the single lane `[255]`, with no trailing zero lane. -/
theorem write_ogg_page_empty_payload_refutes :
    oggSegmentCount 0 = 0 ∧
    oggSegmentCount 0 ≠ 1 ∧
    oggSegmentLanes (oggSegmentCount 0) 0 = ([] : List Nat) ∧
    (write_ogg_page 7 0 2 0 []).length = 27 ∧
    (write_ogg_page 7 0 2 0 []).getD 26 1 = 0 ∧
    oggSegmentLanes (oggSegmentCount 255) 255 = [255] ∧
    oggSegmentLanes (oggSegmentCount 255) 255 ≠ [255, 0] := by
  decide

/-- C2 (amended): for every payload, the emitted segment count is
`(len + 254) / 255`, i.e. the least `m` with `len ≤ 255 * m`
(`ceil(len / 255)`), and the lacing table splits the payload into
255-byte lanes whose final lane is between 1 and 255 bytes; an empty
payload yields an empty lacing table (zero segments, not one), and an
exactly-255-aligned payload ends in a full 255-byte lane with no
trailing zero-length lane. -/
theorem write_ogg_page_segment_table (serial granule headerType pageNo : Nat)
    (data : List Nat) :
    write_ogg_page serial granule headerType pageNo data =
      (oggPageHeaderPreCrc serial granule headerType pageNo data).take 22 ++
        leBytes (ogg_crc (oggPageHeaderPreCrc serial granule headerType pageNo data)
          data) 4 ++
        ([oggSegmentCount data.length % 256] ++
          oggSegmentLanes (oggSegmentCount data.length) data.length) ++ data
    ∧ data.length ≤ 255 * oggSegmentCount data.length
    ∧ (∀ m, data.length ≤ 255 * m → oggSegmentCount data.length ≤ m)
    ∧ (data.length = 0 →
        oggSegmentLanes (oggSegmentCount data.length) data.length = [])
    ∧ (0 < data.length →
        oggSegmentLanes (oggSegmentCount data.length) data.length =
          List.replicate (oggSegmentCount data.length - 1) 255 ++
            [data.length - 255 * (oggSegmentCount data.length - 1)]
        ∧ 0 < data.length - 255 * (oggSegmentCount data.length - 1)
        ∧ data.length - 255 * (oggSegmentCount data.length - 1) ≤ 255) := by
  refine ⟨?_, ?_, ?_, ?_, ?_⟩
  · simp [write_ogg_page, oggPageHeaderPreCrc_drop_26, List.append_assoc]
  · simp only [oggSegmentCount]; omega
  · intro m; simp only [oggSegmentCount]; omega
  · intro h; rw [h]; rfl
  · intro h
    have hlt : 255 * (oggSegmentCount data.length - 1) < data.length := by
      simp only [oggSegmentCount]; omega
    have hle : data.length ≤ 255 * (oggSegmentCount data.length - 1 + 1) := by
      simp only [oggSegmentCount]; omega
    have hc : oggSegmentCount data.length - 1 + 1 = oggSegmentCount data.length := by
      simp only [oggSegmentCount]; omega
    refine ⟨?_, by omega, by omega⟩
    rw [← hc]
    exact oggSegmentLanes_eq_replicate _ _ hlt hle

/-- Witness for the amended C2 theorem at a concrete 300-byte payload:
two lanes `[255, 45]`. -/
theorem write_ogg_page_segment_table_witness :
    oggSegmentLanes (oggSegmentCount (List.replicate 300 (7 : Nat)).length)
        (List.replicate 300 (7 : Nat)).length =
      List.replicate (oggSegmentCount (List.replicate 300 (7 : Nat)).length - 1)
          255 ++
        [(List.replicate 300 (7 : Nat)).length -
          255 * (oggSegmentCount (List.replicate 300 (7 : Nat)).length - 1)] :=
  ((write_ogg_page_segment_table 7 0 0 0
    (List.replicate 300 7)).2.2.2.2 (by decide)).1

/-! ### CRC32: field independence and the MSB-first bit-serial reference

The spec describes the checksum as "the non-reflected (MSB-first)
variant with polynomial 0x04C11DB7, computed over the page header (CRC
field zeroed) concatenated with the payload".  `crc32Spec` renders that
sentence directly (xor each byte into the top of the register, then run
eight polynomial bit steps); the code's table-driven `ogg_crc` is proved
equal to it. -/

/-- Reference byte update of the MSB-first CRC32 as the spec words it:
the byte enters the top byte of the 32-bit register, then eight
polynomial bit steps with `0x04C11DB7` run. -/
def crc32SpecUpdate (crc b : Nat) : Nat := crcBitStep^[8] (crc ^^^ (b <<< 24))

/-- Reference CRC32 of a whole message, starting from register 0. -/
def crc32Spec (msg : List Nat) : Nat := msg.foldl crc32SpecUpdate 0

theorem xor_shiftLeft_distrib (a b k : Nat) :
    (a ^^^ b) <<< k = (a <<< k) ^^^ (b <<< k) := by
  apply Nat.eq_of_testBit_eq
  intro i
  simp only [Nat.testBit_shiftLeft, Nat.testBit_xor]
  by_cases h : k ≤ i <;> simp [h]

theorem xor_mod_two_pow (a b k : Nat) :
    (a ^^^ b) % 2 ^ k = a % 2 ^ k ^^^ b % 2 ^ k := by
  apply Nat.eq_of_testBit_eq
  intro i
  simp only [Nat.testBit_mod_two_pow, Nat.testBit_xor]
  by_cases h : i < k <;> simp [h]

theorem crcBitStep_lt (r : Nat) : crcBitStep r < 2 ^ 32 := by
  unfold crcBitStep
  split <;> exact Nat.mod_lt _ (by norm_num)

theorem crcBitStep_cond_eq (r : Nat) :
    crcBitStep r = if r.testBit 31 then ((r <<< 1) ^^^ 0x04c11db7) % 2 ^ 32
      else (r <<< 1) % 2 ^ 32 := by
  have hand : r &&& 0x80000000 = if r.testBit 31 then 0x80000000 else 0 := by
    have h80 : (0x80000000 : Nat) = 2 ^ 31 := by norm_num
    apply Nat.eq_of_testBit_eq
    intro i
    by_cases hi : i = 31
    · subst hi
      by_cases h31 : r.testBit 31 <;>
        simp [h31, h80, Nat.testBit_and, Nat.testBit_two_pow, Nat.zero_testBit]
    · have hne : ¬ (31 = i) := fun hcon => hi hcon.symm
      have hbit : Nat.testBit 0x80000000 i = false := by
        rw [h80, Nat.testBit_two_pow]
        simp [hne]
      by_cases h31 : r.testBit 31 <;>
        simp [h31, hbit, Nat.testBit_and, Nat.zero_testBit]
  by_cases h31 : r.testBit 31
  · have : r &&& 0x80000000 ≠ 0 := by rw [hand]; simp [h31]
    simp [crcBitStep, this, h31]
  · have : ¬ r &&& 0x80000000 ≠ 0 := by rw [hand]; simp [h31]
    simp [crcBitStep, this, h31]

theorem crcBitStep_xor (x y : Nat) (hy : y < 2 ^ 31) :
    crcBitStep (x ^^^ y) = crcBitStep x ^^^ (y <<< 1) := by
  have hyb : y.testBit 31 = false := Nat.testBit_lt_two_pow hy
  have htop : (x ^^^ y).testBit 31 = x.testBit 31 := by
    simp [Nat.testBit_xor, hyb]
  have hy1 : y <<< 1 < 2 ^ 32 := by
    rw [Nat.shiftLeft_eq]
    omega
  rw [crcBitStep_cond_eq, crcBitStep_cond_eq, htop]
  by_cases hx : x.testBit 31
  · simp only [hx, if_pos]
    rw [xor_shiftLeft_distrib, Nat.xor_assoc, Nat.xor_comm (y <<< 1) _,
      ← Nat.xor_assoc, xor_mod_two_pow, Nat.mod_eq_of_lt hy1]
  · simp only [hx, if_neg, Bool.false_eq_true, not_false_iff, if_false]
    rw [xor_shiftLeft_distrib, xor_mod_two_pow, Nat.mod_eq_of_lt hy1]

theorem iterate_crcBitStep_xor :
    ∀ (k x y : Nat), y <<< k < 2 ^ 32 →
      crcBitStep^[k] (x ^^^ y) = crcBitStep^[k] x ^^^ (y <<< k) := by
  intro k
  induction k with
  | zero => intro x y h; simp
  | succ k ih =>
      intro x y h
      have h2 : (2 : Nat) ≤ 2 ^ (k + 1) := by
        calc (2 : Nat) = 2 ^ 1 := by norm_num
          _ ≤ 2 ^ (k + 1) := Nat.pow_le_pow_right (by norm_num) (by omega)
      have hy31 : y < 2 ^ 31 := by
        rw [Nat.shiftLeft_eq] at h
        have hmul : y * 2 ≤ y * 2 ^ (k + 1) := Nat.mul_le_mul_left y h2
        omega
      rw [Function.iterate_succ_apply, Function.iterate_succ_apply]
      rw [crcBitStep_xor x y hy31]
      have hstep : (y <<< 1) <<< k < 2 ^ 32 := by
        rw [← Nat.shiftLeft_add, Nat.add_comm 1 k]
        exact h
      rw [ih (crcBitStep x) (y <<< 1) hstep, ← Nat.shiftLeft_add,
        Nat.add_comm 1 k]

theorem xor_byte_decompose (crc b : Nat) :
    crc ^^^ (b <<< 24) = ((crc >>> 24 ^^^ b) <<< 24) ^^^ crc % 2 ^ 24 := by
  apply Nat.eq_of_testBit_eq
  intro i
  simp only [Nat.testBit_xor, Nat.testBit_shiftLeft, Nat.testBit_shiftRight,
    Nat.testBit_mod_two_pow]
  by_cases hi : 24 ≤ i
  · have h1 : ¬ i < 24 := by omega
    have h2 : 24 + (i - 24) = i := by omega
    simp [hi, h1, h2, Bool.xor_comm]
  · have h1 : i < 24 := by omega
    simp [hi, h1]

theorem shiftLeft8_mod (crc : Nat) :
    (crc <<< 8) % 2 ^ 32 = (crc % 2 ^ 24) <<< 8 := by
  apply Nat.eq_of_testBit_eq
  intro i
  simp only [Nat.testBit_mod_two_pow, Nat.testBit_shiftLeft]
  by_cases h8 : 8 ≤ i
  · by_cases h32 : i < 32
    · simp [h8, h32, (by omega : i - 8 < 24)]
    · simp [eq_false h32, eq_false (by omega : ¬ i - 8 < 24)]
  · simp [h8]

theorem crcTable_getD (i : Nat) (h : i < 256) :
    crcTable.getD i 0 = crcEntry i := by
  have hr : (List.range 256)[i]? = some i := List.getElem?_range h
  rw [List.getD_eq_getElem?_getD, crcTable, List.getElem?_map, hr]
  rfl

theorem crcEntry_of_lt (i : Nat) (h : i < 256) :
    crcEntry i = crcBitStep^[8] (i <<< 24) := by
  have hpow : (2 : Nat) ^ 32 = 4294967296 := by norm_num
  have hsh : i <<< 24 = i * 16777216 := by
    rw [Nat.shiftLeft_eq]
  have hmod : (i <<< 24) % 2 ^ 32 = i <<< 24 := by
    apply Nat.mod_eq_of_lt
    rw [hsh, hpow]
    omega
  unfold crcEntry
  rw [hmod]

theorem shiftRight24_lt (crc : Nat) (h : crc < 2 ^ 32) : crc >>> 24 < 256 := by
  rw [Nat.shiftRight_eq_div_pow]
  have : crc / 2 ^ 24 < 2 ^ 8 := Nat.div_lt_of_lt_mul (by norm_num at h ⊢; omega)
  norm_num at this
  exact this

theorem crcByteStep_eq_spec (crc b : Nat) (hcrc : crc < 2 ^ 32) (hb : b < 256) :
    crcByteStep crc b = crc32SpecUpdate crc b := by
  have ht : crc >>> 24 < 256 := shiftRight24_lt crc hcrc
  have ht2 : crc >>> 24 ^^^ b < 256 := by
    have h256 : (256 : Nat) = 2 ^ 8 := by norm_num
    rw [h256] at ht hb ⊢
    exact Nat.xor_lt_two_pow ht hb
  have hlow : (crc % 2 ^ 24) <<< 8 < 2 ^ 32 := by
    rw [Nat.shiftLeft_eq]
    have := Nat.mod_lt crc (show 0 < 2 ^ 24 by norm_num)
    norm_num at this ⊢
    omega
  unfold crcByteStep crc32SpecUpdate
  rw [Nat.mod_eq_of_lt ht, crcTable_getD _ ht2, crcEntry_of_lt _ ht2,
    xor_byte_decompose, iterate_crcBitStep_xor 8 _ _ hlow, shiftLeft8_mod]
  exact Nat.xor_comm _ _

theorem crc32SpecUpdate_lt (crc b : Nat) : crc32SpecUpdate crc b < 2 ^ 32 := by
  unfold crc32SpecUpdate
  rw [show (8 : Nat) = 7 + 1 from rfl, Function.iterate_succ_apply']
  exact crcBitStep_lt _

theorem foldl_crcByteStep_eq_spec :
    ∀ (msg : List Nat) (crc : Nat), crc < 2 ^ 32 → (∀ b ∈ msg, b < 256) →
      msg.foldl crcByteStep crc = msg.foldl crc32SpecUpdate crc := by
  intro msg
  induction msg with
  | nil => intros; rfl
  | cons b msg ih =>
      intro crc hcrc hmem
      simp only [List.foldl_cons]
      rw [crcByteStep_eq_spec crc b hcrc (hmem b (by simp))]
      exact ih _ (crc32SpecUpdate_lt crc b) (fun x hx => hmem x (by simp [hx]))

theorem foldl_crc32SpecUpdate_lt :
    ∀ (msg : List Nat) (crc : Nat), crc < 2 ^ 32 →
      msg.foldl crc32SpecUpdate crc < 2 ^ 32 := by
  intro msg
  induction msg with
  | nil => intro crc h; exact h
  | cons b msg ih =>
      intro crc _
      simp only [List.foldl_cons]
      exact ih _ (crc32SpecUpdate_lt crc b)

theorem zeroCrcField_mem_lt (header : List Nat) (hh : ∀ b ∈ header, b < 256) :
    ∀ b ∈ zeroCrcField header, b < 256 := by
  intro b hb
  unfold zeroCrcField at hb
  split at hb
  · rcases List.mem_append.mp hb with h | h
    · rcases List.mem_append.mp h with h2 | h2
      · exact hh b (List.mem_of_mem_take h2)
      · simp at h2
        omega
    · exact hh b (List.mem_of_mem_drop h)
  · exact hh b hb

theorem ogg_crc_eq_crc32Spec (header data : List Nat)
    (hh : ∀ b ∈ header, b < 256) (hd : ∀ b ∈ data, b < 256) :
    ogg_crc header data = crc32Spec (zeroCrcField header ++ data) := by
  unfold ogg_crc crc32Spec
  rw [List.foldl_append,
    foldl_crcByteStep_eq_spec (zeroCrcField header) 0 (by norm_num)
      (zeroCrcField_mem_lt header hh)]
  exact foldl_crcByteStep_eq_spec data _
    (foldl_crc32SpecUpdate_lt _ 0 (by norm_num)) hd

theorem zeroCrcField_congr (h1 h2 : List Nat) (hlen : 27 ≤ h1.length)
    (ht : h1.take 22 = h2.take 22) (hd : h1.drop 26 = h2.drop 26) :
    zeroCrcField h1 = zeroCrcField h2 := by
  have hlen2 : 26 ≤ h2.length := by
    by_contra hc
    push_neg at hc
    have hnil : h2.drop 26 = [] := List.drop_eq_nil_of_le (by omega)
    rw [hnil] at hd
    have : (h1.drop 26).length = h1.length - 26 := List.length_drop 26 h1
    rw [hd] at this
    simp at this
    omega
  unfold zeroCrcField
  rw [if_pos (by omega), if_pos hlen2, ht, hd]

/-- C4: for every page header of length at least 27 and every payload,
`ogg_crc` is independent of the prior contents of the header's CRC field
(bytes 22..26): any two headers agreeing outside that window produce the
same checksum; and on byte-valued input the checksum is exactly the
MSB-first (non-reflected) CRC32 with polynomial 0x04C11DB7 computed over
the header with its CRC field zeroed, concatenated with the payload. -/
theorem ogg_crc_field_independent_and_msb_first :
    (∀ (h1 h2 data : List Nat), 27 ≤ h1.length →
        h1.take 22 = h2.take 22 → h1.drop 26 = h2.drop 26 →
        ogg_crc h1 data = ogg_crc h2 data)
    ∧ (∀ (header data : List Nat),
        (∀ b ∈ header, b < 256) → (∀ b ∈ data, b < 256) →
        ogg_crc header data = crc32Spec (zeroCrcField header ++ data)) := by
  constructor
  · intro h1 h2 data hlen ht hd
    unfold ogg_crc
    rw [zeroCrcField_congr h1 h2 hlen ht hd]
  · exact ogg_crc_eq_crc32Spec

/-- Witness for C4 at two concrete 27-byte headers differing only in the
CRC field (bytes 22..26), with a concrete 2-byte payload. -/
theorem ogg_crc_field_independent_witness :
    ogg_crc
        [0x4F, 0x67, 0x67, 0x53, 0, 0, 1, 2, 3, 4, 5, 6, 7, 8, 9, 10, 11,
          12, 13, 14, 15, 16, 0, 0, 0, 0, 1] [10, 20] =
      ogg_crc
        [0x4F, 0x67, 0x67, 0x53, 0, 0, 1, 2, 3, 4, 5, 6, 7, 8, 9, 10, 11,
          12, 13, 14, 15, 16, 99, 98, 97, 96, 1] [10, 20] ∧
    ogg_crc
        [0x4F, 0x67, 0x67, 0x53, 0, 0, 1, 2, 3, 4, 5, 6, 7, 8, 9, 10, 11,
          12, 13, 14, 15, 16, 0, 0, 0, 0, 1] [10, 20] =
      crc32Spec (zeroCrcField
        [0x4F, 0x67, 0x67, 0x53, 0, 0, 1, 2, 3, 4, 5, 6, 7, 8, 9, 10, 11,
          12, 13, 14, 15, 16, 0, 0, 0, 0, 1] ++ [10, 20]) :=
  ⟨ogg_crc_field_independent_and_msb_first.1 _ _ _ (by decide) (by decide)
      (by decide),
   ogg_crc_field_independent_and_msb_first.2 _ _ (by decide) (by decide)⟩

/-! ## Audio mixer (src/audio/mixer.rs)

The `f32` sample arithmetic is embedded over `ℝ`; the spec states the
DSP properties as exact real-number facts.  `AudioMixer::mix` reads only
the `mic_boost` field of the mixer, which is passed here as an explicit
parameter. -/

/-- Rust `f32::signum` on the reals: 1 for nonnegative input, -1 for
negative input (the `|x| > 0.5` branch of `soft_clip`, the only caller,
never sees 0, so the zero convention is immaterial). -/
noncomputable def signum (x : ℝ) : ℝ := if 0 ≤ x then 1 else -1

/-- `soft_clip`: identity within `|x| ≤ 0.5`, tanh-based saturation
outside, exactly as in the source. -/
noncomputable def soft_clip (sample : ℝ) : ℝ :=
  if |sample| ≤ 0.5 then sample
  else signum sample * (0.5 + 0.5 * Real.tanh (2 * (|sample| - 0.5)))

/-- `AudioMixer::mix`: for `i` in `0..max(len(system), len(mic))`, read
each input with out-of-range positions as 0.0, scale the mic sample by
the boost, sum, and soft-clip. -/
noncomputable def mix (mic_boost : ℝ) (system mic : List ℝ) : List ℝ :=
  (List.range (max system.length mic.length)).map
    (fun i => soft_clip (system.getD i 0 + mic.getD i 0 * mic_boost))

/-- The reference soft-clip curve as the spec words it: for `|x| > 0.5`
the value `sign(x) * (0.5 + 0.5 * tanh(2 * (|x| - 0.5)))`, identity
otherwise. -/
noncomputable def softClipSpec (x : ℝ) : ℝ :=
  if 0.5 < |x| then signum x * (0.5 + 0.5 * Real.tanh (2 * (|x| - 0.5)))
  else x

/-! ### tanh facts -/

theorem tanh_lt_one (x : ℝ) : Real.tanh x < 1 := by
  rw [Real.tanh_eq_sinh_div_cosh]
  rw [div_lt_one (Real.cosh_pos x)]
  exact Real.sinh_lt_cosh x

theorem neg_one_lt_tanh (x : ℝ) : -1 < Real.tanh x := by
  rw [Real.tanh_eq_sinh_div_cosh, lt_div_iff₀ (Real.cosh_pos x)]
  have h1 := Real.sinh_add_cosh x
  have h2 := Real.exp_pos x
  linarith

theorem tanh_eq_one_sub (x : ℝ) :
    Real.tanh x = 1 - 2 / (Real.exp (2 * x) + 1) := by
  have h1 : Real.exp (2 * x) = Real.exp x * Real.exp x := by
    rw [two_mul, Real.exp_add]
  have hx : Real.exp x ≠ 0 := (Real.exp_pos x).ne'
  have hx2 : Real.exp x * Real.exp x + 1 ≠ 0 := by positivity
  rw [Real.tanh_eq_sinh_div_cosh, Real.sinh_eq, Real.cosh_eq, h1,
    Real.exp_neg]
  field_simp
  ring

theorem tanh_strictMono : StrictMono Real.tanh := by
  intro a b hab
  rw [tanh_eq_one_sub, tanh_eq_one_sub]
  have h1 : Real.exp (2 * a) < Real.exp (2 * b) :=
    Real.exp_lt_exp.mpr (by linarith)
  have h2 : (0 : ℝ) < Real.exp (2 * a) + 1 := by positivity
  have h3 : 2 / (Real.exp (2 * b) + 1) < 2 / (Real.exp (2 * a) + 1) :=
    div_lt_div_of_pos_left (by norm_num) h2 (by linarith)
  linarith

theorem tanh_nonneg_of_nonneg (x : ℝ) (h : 0 ≤ x) : 0 ≤ Real.tanh x := by
  have := tanh_strictMono.monotone h
  rw [Real.tanh_zero] at this
  exact this

/-! ### soft_clip branch lemmas -/

theorem soft_clip_of_abs_le (x : ℝ) (h : |x| ≤ 0.5) : soft_clip x = x := by
  unfold soft_clip
  rw [if_pos h]

theorem soft_clip_of_half_lt (x : ℝ) (h : 0.5 < x) :
    soft_clip x = 0.5 + 0.5 * Real.tanh (2 * (x - 0.5)) := by
  have habs : |x| = x := abs_of_pos (by linarith)
  have hsgn : signum x = 1 := if_pos (by linarith)
  unfold soft_clip
  rw [if_neg (by rw [habs]; linarith), hsgn, habs, one_mul]

theorem soft_clip_of_lt_neg_half (x : ℝ) (h : x < -0.5) :
    soft_clip x = -(0.5 + 0.5 * Real.tanh (2 * (-x - 0.5))) := by
  have habs : |x| = -x := abs_of_neg (by linarith)
  have hsgn : signum x = -1 := if_neg (by linarith)
  unfold soft_clip
  rw [if_neg (by rw [habs]; linarith), hsgn, habs, neg_one_mul]

theorem soft_clip_gt_half (x : ℝ) (h : 0.5 < x) : 0.5 ≤ soft_clip x := by
  rw [soft_clip_of_half_lt x h]
  have := tanh_nonneg_of_nonneg (2 * (x - 0.5)) (by linarith)
  linarith

theorem soft_clip_le_neg_half (x : ℝ) (h : x < -0.5) :
    soft_clip x ≤ -0.5 := by
  rw [soft_clip_of_lt_neg_half x h]
  have := tanh_nonneg_of_nonneg (2 * (-x - 0.5)) (by linarith)
  linarith

theorem soft_clip_monotone : Monotone soft_clip := by
  intro a b hab
  by_cases ha1 : a < -0.5
  · by_cases hb1 : b < -0.5
    · rw [soft_clip_of_lt_neg_half a ha1, soft_clip_of_lt_neg_half b hb1]
      have := tanh_strictMono.monotone
        (show 2 * (-b - 0.5) ≤ 2 * (-a - 0.5) by linarith)
      linarith
    · push_neg at hb1
      have hsa := soft_clip_le_neg_half a ha1
      by_cases hb2 : b ≤ 0.5
      · have hsb : soft_clip b = b :=
          soft_clip_of_abs_le b (abs_le.mpr ⟨by linarith, hb2⟩)
        linarith
      · push_neg at hb2
        have hsb := soft_clip_gt_half b hb2
        linarith
  · push_neg at ha1
    by_cases ha2 : a ≤ 0.5
    · have hsa : soft_clip a = a :=
        soft_clip_of_abs_le a (abs_le.mpr ⟨by linarith, ha2⟩)
      by_cases hb2 : b ≤ 0.5
      · have hsb : soft_clip b = b :=
          soft_clip_of_abs_le b (abs_le.mpr ⟨by linarith, hb2⟩)
        linarith
      · push_neg at hb2
        have hsb := soft_clip_gt_half b hb2
        linarith
    · push_neg at ha2
      rw [soft_clip_of_half_lt a ha2,
        soft_clip_of_half_lt b (lt_of_lt_of_le ha2 hab)]
      have := tanh_strictMono.monotone
        (show 2 * (a - 0.5) ≤ 2 * (b - 0.5) by linarith)
      linarith

/-- C8: `soft_clip` equals the reference piecewise saturation curve of
the spec; it is the identity on `|x| ≤ 0.5`; `soft_clip 1.5 < 1` and
`-1 < soft_clip (-1.5)`; and it is monotone non-decreasing on all of its
domain. -/
theorem soft_clip_matches_reference :
    (∀ x : ℝ, soft_clip x = softClipSpec x)
    ∧ (∀ x : ℝ, |x| ≤ 0.5 → soft_clip x = x)
    ∧ soft_clip 1.5 < 1
    ∧ -1 < soft_clip (-1.5)
    ∧ Monotone soft_clip := by
  refine ⟨?_, fun x h => soft_clip_of_abs_le x h, ?_, ?_, soft_clip_monotone⟩
  · intro x
    unfold soft_clip softClipSpec
    by_cases h : |x| ≤ 0.5
    · rw [if_pos h, if_neg (by linarith)]
    · rw [if_neg h, if_pos (by linarith)]
  · rw [soft_clip_of_half_lt 1.5 (by norm_num),
      show (2 : ℝ) * (1.5 - 0.5) = 2 by norm_num]
    have := tanh_lt_one 2
    linarith
  · rw [soft_clip_of_lt_neg_half (-1.5) (by norm_num),
      show (2 : ℝ) * (-(-1.5) - 0.5) = 2 by norm_num]
    have := tanh_lt_one 2
    linarith

/-- Witness for C8 at concrete inputs: identity at 3/10 and
monotonicity applied at 0 ≤ 1. -/
theorem soft_clip_matches_reference_witness :
    soft_clip (3 / 10 : ℝ) = 3 / 10 ∧ soft_clip 0 ≤ soft_clip 1 :=
  ⟨soft_clip_matches_reference.2.1 (3 / 10)
      (by rw [abs_of_nonneg (by norm_num : (0 : ℝ) ≤ 3 / 10)]; norm_num),
   soft_clip_matches_reference.2.2.2.2 (by norm_num : (0 : ℝ) ≤ 1)⟩

/-- C7: `mix` emits exactly `max (len system) (len mic)` samples, and
the sample at each position `i` is the soft-clipped sum of the `i`-th
system sample and the boosted `i`-th mic sample, missing positions on
the shorter input read as silence (0.0). -/
theorem mix_length_and_samples (mic_boost : ℝ) (system mic : List ℝ) :
    (mix mic_boost system mic).length = max system.length mic.length
    ∧ ∀ i, i < max system.length mic.length →
        (mix mic_boost system mic).getD i 0 =
          soft_clip (system.getD i 0 + mic_boost * mic.getD i 0) := by
  constructor
  · simp [mix]
  · intro i hi
    unfold mix
    rw [List.getD_eq_getElem?_getD, List.getElem?_map, List.getElem?_range hi]
    simp [mul_comm]

/-- Witness for C7: a length-1 system stream against an empty mic
stream at position 0. -/
theorem mix_length_and_samples_witness :
    (mix 2 [(1 / 2 : ℝ)] []).getD 0 0 =
      soft_clip ([(1 / 2 : ℝ)].getD 0 0 + 2 * ([] : List ℝ).getD 0 0) :=
  (mix_length_and_samples 2 [(1 / 2 : ℝ)] []).2 0 (by simp)

/-! ## Transcript segment merging (src/transcription/pipeline.rs)

The `f64` start/end timestamps are embedded over `ℚ`: `merge_segments`
only subtracts and compares them against the literal 0.5, which is
exact.  Unused fields of `TranscriptSegment` (`id`, `recording_id`,
`confidence`) are carried for faithfulness to the storage model. -/

/-- A transcript segment (src/storage/models.rs `TranscriptSegment`). -/
structure TranscriptSegment where
  id : Int
  recording_id : String
  start_time : ℚ
  end_time : ℚ
  text : String
  speaker : Option String
  confidence : Option ℚ
deriving DecidableEq, Repr

/-- The loop body of `merge_segments`: holding accumulated segment
`current`, walk the remaining segments, merging a segment into
`current` when `segment.start_time - current.end_time < 0.5` and the
speakers are equal, flushing `current` otherwise. -/
def mergeLoop (current : TranscriptSegment) :
    List TranscriptSegment → List TranscriptSegment
  | [] => [current]
  | segment :: rest =>
      if segment.start_time - current.end_time < 0.5 ∧
          current.speaker = segment.speaker then
        mergeLoop
          { current with
              end_time := segment.end_time,
              text := current.text ++ " " ++ segment.text } rest
      else
        current :: mergeLoop segment rest

/-- `merge_segments`: empty input passes through; otherwise run the
merge loop seeded with the first segment. -/
def merge_segments : List TranscriptSegment → List TranscriptSegment
  | [] => []
  | first :: rest => mergeLoop first rest

/-- C9: two adjacent spans are merged exactly when the gap between the
second span's start and the accumulated span's end is under 0.5 seconds
and their speaker tags are equal (two unset tags comparing equal); the
merged span keeps the first span's start, extends the end to the second
span's end, and joins the texts with a single space; any other adjacent
pair flushes the accumulated span as-is. -/
theorem merge_segments_adjacent (a b : TranscriptSegment)
    (rest : List TranscriptSegment) :
    (b.start_time - a.end_time < 0.5 ∧ a.speaker = b.speaker →
      merge_segments (a :: b :: rest) =
        merge_segments
          ({ a with end_time := b.end_time, text := a.text ++ " " ++ b.text }
            :: rest))
    ∧ (¬ (b.start_time - a.end_time < 0.5 ∧ a.speaker = b.speaker) →
      merge_segments (a :: b :: rest) = a :: merge_segments (b :: rest))
    ∧ (a.speaker = none → b.speaker = none →
        b.start_time - a.end_time < 0.5 →
      merge_segments (a :: b :: rest) =
        merge_segments
          ({ a with end_time := b.end_time, text := a.text ++ " " ++ b.text }
            :: rest)) := by
  refine ⟨?_, ?_, ?_⟩
  · intro h
    show mergeLoop a (b :: rest) = _
    rw [mergeLoop, if_pos h]
    rfl
  · intro h
    show mergeLoop a (b :: rest) = _
    rw [mergeLoop, if_neg h]
    rfl
  · intro ha hb hgap
    show mergeLoop a (b :: rest) = _
    rw [mergeLoop, if_pos ⟨hgap, by rw [ha, hb]⟩]
    rfl

/-- Witness for C9 on concrete segments: a 0.2-second gap with both
speakers unset merges into one span with space-joined text and extended
end time, and a 1-second gap flushes the first span unchanged. -/
theorem merge_segments_adjacent_witness :
    merge_segments
        [⟨0, "r", 0, 2, "hello", none, none⟩,
         ⟨0, "r", 2.2, 3, "world", none, none⟩] =
      [⟨0, "r", 0, 3, "hello world", none, none⟩] ∧
    merge_segments
        [⟨0, "r", 0, 2, "hello", none, none⟩,
         ⟨0, "r", 3, 4, "world", none, none⟩] =
      [⟨0, "r", 0, 2, "hello", none, none⟩,
       ⟨0, "r", 3, 4, "world", none, none⟩] := by
  constructor
  · rw [(merge_segments_adjacent ⟨0, "r", 0, 2, "hello", none, none⟩
      ⟨0, "r", 2.2, 3, "world", none, none⟩ []).1 (by norm_num)]
    rfl
  · rw [(merge_segments_adjacent ⟨0, "r", 0, 2, "hello", none, none⟩
      ⟨0, "r", 3, 4, "world", none, none⟩ []).2.1 (by norm_num)]
    rfl

/-! ## Daemon command handlers (src/daemon/service.rs, src/daemon/state.rs)

The handlers run inside the single command-consumer task; their external
effects (capture construction and start/stop, database open, insert and
update, clock and UUID generation) are embedded as oracle records that
fix the outcome of each call, and the handlers are otherwise direct
translations of the Rust control flow.  `Instant` timestamps are `Nat`
ticks; `f32` levels are `ℚ`. -/

/-- Storage lifecycle state (src/storage/models.rs `RecordingState`). -/
inductive RecordingState where
  | recording
  | pending
  | transcribing
  | completed
  | failed
deriving DecidableEq, Repr

/-- A recording row (src/storage/models.rs `Recording`). -/
structure Recording where
  id : String
  title : String
  audio_path : Option String
  duration_secs : Option Nat
  state : RecordingState
  created_at : Nat
  updated_at : Nat
  notes : Option String
  tags : List String
deriving DecidableEq, Repr

/-- `Recording::new(title)`: fresh UUID (supplied by the oracle), no
audio path or duration yet, state `Recording`, both timestamps now. -/
def Recording.new (title freshId : String) (now : Nat) : Recording :=
  { id := freshId, title := title, audio_path := none, duration_secs := none,
    state := RecordingState.recording, created_at := now, updated_at := now,
    notes := none, tags := [] }

/-- `ActiveRecording` (src/daemon/state.rs). -/
structure ActiveRecording where
  recording : Recording
  audio_path : String
  started_at : Nat
  audio_level : ℚ
deriving DecidableEq, Repr

/-- `TranscriptionState` (src/daemon/state.rs). -/
structure TranscriptionState where
  recording_id : String
  progress : ℚ
deriving DecidableEq, Repr

/-- `DaemonState` (src/daemon/state.rs). -/
inductive DaemonState where
  | idle
  | recording (active : ActiveRecording)
  | transcribing (state : TranscriptionState)
deriving DecidableEq, Repr

/-- `RecordingStatus` (src/daemon/ipc.rs). -/
inductive RecordingStatus where
  | idle
  | recording (id title : String) (duration_secs : Nat) (audio_level : ℚ)
  | transcribing (id : String) (progress : ℚ)
deriving DecidableEq, Repr

/-- `DaemonResponse` (src/daemon/ipc.rs). -/
inductive DaemonResponse where
  | recordingStarted (id : String)
  | recordingStopped (id : String) (duration_secs : Nat)
  | status (s : RecordingStatus)
  | pong
  | ok
  | error (message : String)
deriving DecidableEq, Repr

/-- Oracle outcomes for one `handle_start_recording` invocation:
`freshId`/`now` are the UUID and clock reads, the four `Except` fields
fix the results of `create_capture`, `capture.start`, `Database::open`
and `db.insert_recording` (error payloads are the rendered messages). -/
structure StartEnv where
  freshId : String
  now : Nat
  audioDir : String
  createCapture : Except String Unit
  captureStart : Except String Unit
  dbOpen : Except String Unit
  dbInsert : Except String Unit
deriving Repr

/-- Observable outcome of `handle_start_recording`: the IPC response,
the daemon state after the call, whether `*audio_capture` now holds a
running capture, and the rows inserted into storage. -/
structure StartResult where
  response : DaemonResponse
  state : DaemonState
  captureHeld : Bool
  inserted : List Recording
deriving DecidableEq, Repr

/-- `handle_start_recording`: reject when the state matches
`DaemonState::Recording(_)`; otherwise build the session, construct and
start the capture backend, open the database, insert the row, and only
then transition the state to `Recording`.  Every early return leaves the
state untouched. -/
def handle_start_recording (env : StartEnv) (st : DaemonState)
    (title : String) : StartResult :=
  match st with
  | DaemonState.recording a =>
      ⟨DaemonResponse.error "Already recording", DaemonState.recording a,
        false, []⟩
  | _ =>
    let recording := Recording.new title env.freshId env.now
    let audio_path := env.audioDir ++ "/" ++ recording.id ++ ".wav"
    match env.createCapture with
    | Except.error e =>
        ⟨DaemonResponse.error ("Failed to initialize audio: " ++ e), st,
          false, []⟩
    | Except.ok _ =>
      match env.captureStart with
      | Except.error e =>
          ⟨DaemonResponse.error ("Failed to start audio capture: " ++ e), st,
            false, []⟩
      | Except.ok _ =>
        match env.dbOpen with
        | Except.error e =>
            ⟨DaemonResponse.error ("Database error: " ++ e), st, true, []⟩
        | Except.ok _ =>
          let db_recording := { recording with audio_path := some audio_path }
          match env.dbInsert with
          | Except.error e =>
              ⟨DaemonResponse.error ("Failed to save recording: " ++ e), st,
                true, []⟩
          | Except.ok _ =>
              ⟨DaemonResponse.recordingStarted recording.id,
                DaemonState.recording
                  ⟨recording, audio_path, env.now, 0⟩,
                true, [db_recording]⟩

/-- Oracle outcomes for one `handle_stop_recording` invocation:
`now` is the clock read used for the elapsed duration, `dbOpen` fixes
`Database::open`, `getRecording` fixes `db.get_recording(&id)`
(`none` covers both `Err(_)` and `Ok(None)`, which the code treats
alike), and `updateOk` fixes `db.update_recording` (whose failure is
only logged). -/
structure StopEnv where
  now : Nat
  dbOpen : Except String Unit
  getRecording : Option Recording
  updateOk : Bool
deriving Repr

/-- Observable outcome of `handle_stop_recording`. -/
structure StopResult where
  response : DaemonResponse
  state : DaemonState
  captureHeld : Bool
  updated : List Recording
deriving DecidableEq, Repr

/-- `handle_stop_recording`: reject with "Not recording" unless the
state is `Recording`; otherwise stop and discard the capture backend
(errors only logged), then open the database — a failure there returns
an `Error` response with the state still `Recording`; on success the
session row is updated to `Pending` with duration and path, and the
state becomes `Idle`. -/
def handle_stop_recording (env : StopEnv) (st : DaemonState)
    (captureHeld : Bool) : StopResult :=
  match st with
  | DaemonState.recording active =>
    let id := active.recording.id
    let duration_secs := env.now - active.started_at
    -- `capture.stop()` has been attempted and `*audio_capture = None`
    -- executed before the database is opened.
    match env.dbOpen with
    | Except.error e =>
        ⟨DaemonResponse.error ("Database error: " ++ e),
          DaemonState.recording active, false, []⟩
    | Except.ok _ =>
      let updated :=
        match env.getRecording with
        | some rec =>
            if env.updateOk then
              [{ rec with
                  duration_secs := some duration_secs,
                  audio_path := some active.audio_path,
                  state := RecordingState.pending }]
            else []
        | none => []
      ⟨DaemonResponse.recordingStopped id duration_secs, DaemonState.idle,
        false, updated⟩
  | _ => ⟨DaemonResponse.error "Not recording", st, captureHeld, []⟩

/-- C1 counterexample: with the daemon state `Transcribing` and every
external call succeeding, `handle_start_recording` does not fail with
"Already recording" — it starts a new session.  The guard in the code
matches only `DaemonState::Recording(_)`, so the claim that every
non-Idle state (including Transcribing) is rejected is false. -/
theorem start_recording_in_transcribing_refutes :
    (handle_start_recording
        ⟨"id1", 5, "audio", Except.ok (), Except.ok (), Except.ok (),
          Except.ok ()⟩
        (DaemonState.transcribing ⟨"r0", 0⟩) "title").response =
      DaemonResponse.recordingStarted "id1" ∧
    (handle_start_recording
        ⟨"id1", 5, "audio", Except.ok (), Except.ok (), Except.ok (),
          Except.ok ()⟩
        (DaemonState.transcribing ⟨"r0", 0⟩) "title").response ≠
      DaemonResponse.error "Already recording" := by
  constructor
  · rfl
  · decide

/-- C1 (amended): `handle_start_recording` fails with "Already
recording" exactly when the daemon state is `Recording` — a
`Transcribing` state is not rejected — and from any non-`Recording`
state (Idle or Transcribing), when capture and storage succeed, it
creates a session row and transitions the state to `Recording`. -/
theorem start_recording_guard (env : StartEnv) (st : DaemonState)
    (title : String) :
    (∀ a, st = DaemonState.recording a →
      handle_start_recording env st title =
        ⟨DaemonResponse.error "Already recording", st, false, []⟩)
    ∧ ((∀ a, st ≠ DaemonState.recording a) →
        env.createCapture = Except.ok () → env.captureStart = Except.ok () →
        env.dbOpen = Except.ok () → env.dbInsert = Except.ok () →
        handle_start_recording env st title =
          ⟨DaemonResponse.recordingStarted env.freshId,
            DaemonState.recording
              ⟨Recording.new title env.freshId env.now,
                env.audioDir ++ "/" ++ env.freshId ++ ".wav", env.now, 0⟩,
            true,
            [{ Recording.new title env.freshId env.now with
                audio_path :=
                  some (env.audioDir ++ "/" ++ env.freshId ++ ".wav") }]⟩) := by
  constructor
  · intro a ha
    subst ha
    rfl
  · intro hne h1 h2 h3 h4
    cases st with
    | idle => simp [handle_start_recording, Recording.new, h1, h2, h3, h4]
    | recording a => exact absurd rfl (hne a)
    | transcribing t =>
        simp [handle_start_recording, Recording.new, h1, h2, h3, h4]

/-- Witness for the amended C1 theorem: a concrete successful start from
the Idle state. -/
theorem start_recording_guard_witness :
    handle_start_recording
        ⟨"id1", 5, "audio", Except.ok (), Except.ok (), Except.ok (),
          Except.ok ()⟩
        DaemonState.idle "t" =
      ⟨DaemonResponse.recordingStarted "id1",
        DaemonState.recording
          ⟨Recording.new "t" "id1" 5, "audio" ++ "/" ++ "id1" ++ ".wav", 5, 0⟩,
        true,
        [{ Recording.new "t" "id1" 5 with
            audio_path := some ("audio" ++ "/" ++ "id1" ++ ".wav") }]⟩ :=
  (start_recording_guard
      ⟨"id1", 5, "audio", Except.ok (), Except.ok (), Except.ok (),
        Except.ok ()⟩
      DaemonState.idle "t").2
    (fun _ h => DaemonState.noConfusion h) rfl rfl rfl rfl

/-- C6: when `handle_start_recording` runs in the Idle state and
starting (or constructing) the capture backend fails, it returns the
corresponding Audio error, the daemon state remains Idle, no capture is
held and no session row is persisted; and in every run of the handler,
a row is inserted only if capture construction and capture start both
succeeded — the database insert happens strictly after a successful
capture start. -/
theorem start_recording_capture_failure (env : StartEnv) (title : String) :
    (∀ e, env.createCapture = Except.ok () →
      env.captureStart = Except.error e →
      handle_start_recording env DaemonState.idle title =
        ⟨DaemonResponse.error ("Failed to start audio capture: " ++ e),
          DaemonState.idle, false, []⟩)
    ∧ (∀ e, env.createCapture = Except.error e →
      handle_start_recording env DaemonState.idle title =
        ⟨DaemonResponse.error ("Failed to initialize audio: " ++ e),
          DaemonState.idle, false, []⟩)
    ∧ (∀ st, (handle_start_recording env st title).inserted ≠ [] →
        env.createCapture = Except.ok () ∧
          env.captureStart = Except.ok ()) := by
  refine ⟨?_, ?_, ?_⟩
  · intro e h1 h2
    simp [handle_start_recording, h1, h2]
  · intro e h1
    simp [handle_start_recording, h1]
  · intro st h
    cases st with
    | recording a => simp [handle_start_recording] at h
    | idle =>
        cases hc : env.createCapture with
        | error e => simp [handle_start_recording, hc] at h
        | ok u =>
            cases u
            cases hs : env.captureStart with
            | error e => simp [handle_start_recording, hc, hs] at h
            | ok v => cases v; exact ⟨rfl, rfl⟩
    | transcribing t =>
        cases hc : env.createCapture with
        | error e => simp [handle_start_recording, hc] at h
        | ok u =>
            cases u
            cases hs : env.captureStart with
            | error e => simp [handle_start_recording, hc, hs] at h
            | ok v => cases v; exact ⟨rfl, rfl⟩

/-- Witness for C6: a concrete capture-start failure from Idle leaves
everything untouched, and a concrete successful run shows the insert
implies capture success. -/
theorem start_recording_capture_failure_witness :
    handle_start_recording
        ⟨"id2", 9, "audio", Except.ok (), Except.error "no device",
          Except.ok (), Except.ok ()⟩
        DaemonState.idle "t" =
      ⟨DaemonResponse.error
          ("Failed to start audio capture: " ++ "no device"),
        DaemonState.idle, false, []⟩ :=
  (start_recording_capture_failure
      ⟨"id2", 9, "audio", Except.ok (), Except.error "no device",
        Except.ok (), Except.ok ()⟩ "t").1
    "no device" rfl rfl

/-- C10: if `handle_stop_recording` runs in the Recording state and
opening the database fails, it returns an Error response even though
the capture backend has already been stopped and discarded, no row is
updated, and the daemon state remains `Recording` instead of reverting
to Idle — stop is not atomic with respect to storage failure. -/
theorem stop_recording_db_failure (env : StopEnv) (active : ActiveRecording)
    (captureHeld : Bool) (e : String) (h : env.dbOpen = Except.error e) :
    handle_stop_recording env (DaemonState.recording active) captureHeld =
      ⟨DaemonResponse.error ("Database error: " ++ e),
        DaemonState.recording active, false, []⟩ := by
  simp [handle_stop_recording, h]

/-- Witness for C10 at a concrete active recording and database
error. -/
theorem stop_recording_db_failure_witness :
    handle_stop_recording
        ⟨42, Except.error "locked", none, true⟩
        (DaemonState.recording
          ⟨Recording.new "t" "id3" 7, "audio/id3.wav", 7, 0⟩) true =
      ⟨DaemonResponse.error ("Database error: " ++ "locked"),
        DaemonState.recording
          ⟨Recording.new "t" "id3" 7, "audio/id3.wav", 7, 0⟩, false, []⟩ :=
  stop_recording_db_failure
    ⟨42, Except.error "locked", none, true⟩
    ⟨Recording.new "t" "id3" 7, "audio/id3.wav", 7, 0⟩ true "locked" rfl

/-! ## Encoder cleanup (src/audio/encoder.rs `encode_and_cleanup`)

The filesystem effects are embedded as an oracle record: the outcome of
`self.encode`, the metadata query on the freshly written OGG file
(`none` covers a missing file or metadata error), and the WAV removal.
The returned OGG path is abstracted to `Unit`. -/

/-- Oracle outcomes for one `encode_and_cleanup` run. -/
structure EncodeEnv where
  encodeResult : Except String Unit
  oggLen : Option Nat
  removeResult : Except String Unit
deriving Repr

/-- Observable outcome of `encode_and_cleanup`: the returned result and
whether the source WAV file was actually removed. -/
structure CleanupResult where
  result : Except String Unit
  wavRemoved : Bool
deriving Repr

/-- `encode_and_cleanup`: encode, require the OGG metadata query to
succeed, require a non-zero size, and only then delete the WAV.  Every
failure path returns an error with the WAV still in place (a failing
`remove_file` call also leaves it in place). -/
def encode_and_cleanup (env : EncodeEnv) : CleanupResult :=
  match env.encodeResult with
  | Except.error e => ⟨Except.error e, false⟩
  | Except.ok _ =>
    match env.oggLen with
    | none => ⟨Except.error "OGG file not found after encoding", false⟩
    | some len =>
      if len = 0 then ⟨Except.error "OGG file is empty after encoding", false⟩
      else
        match env.removeResult with
        | Except.error _ => ⟨Except.error "Failed to delete WAV file", false⟩
        | Except.ok _ => ⟨Except.ok (), true⟩

/-- C5: `encode_and_cleanup` removes the source WAV only after the OGG
output exists with non-zero size (and encoding succeeded), and whenever
encoding fails or the output is missing or empty it returns an error
with the WAV not removed. -/
theorem encode_and_cleanup_guards_wav (env : EncodeEnv) :
    ((encode_and_cleanup env).wavRemoved = true →
      env.encodeResult = Except.ok () ∧ ∃ n, env.oggLen = some n ∧ 0 < n)
    ∧ (∀ e, env.encodeResult = Except.error e →
        (encode_and_cleanup env).result = Except.error e ∧
          (encode_and_cleanup env).wavRemoved = false)
    ∧ (env.oggLen = none →
        (∃ msg, (encode_and_cleanup env).result = Except.error msg) ∧
          (encode_and_cleanup env).wavRemoved = false)
    ∧ (env.oggLen = some 0 →
        (∃ msg, (encode_and_cleanup env).result = Except.error msg) ∧
          (encode_and_cleanup env).wavRemoved = false) := by
  obtain ⟨enc, ogg, rem⟩ := env
  refine ⟨?_, ?_, ?_, ?_⟩
  · intro h
    cases enc with
    | error e => simp [encode_and_cleanup] at h
    | ok u =>
        cases u
        cases ogg with
        | none => simp [encode_and_cleanup] at h
        | some len =>
            by_cases hlen : len = 0
            · simp [encode_and_cleanup, hlen] at h
            · exact ⟨rfl, len, rfl, by omega⟩
  · intro e he
    cases enc with
    | error e2 => cases he; exact ⟨rfl, rfl⟩
    | ok u => cases he
  · intro hogg
    cases enc with
    | error e => exact ⟨⟨e, rfl⟩, rfl⟩
    | ok u => cases u; cases hogg; exact ⟨⟨_, rfl⟩, rfl⟩
  · intro hogg
    cases enc with
    | error e => exact ⟨⟨e, rfl⟩, rfl⟩
    | ok u => cases u; cases hogg; exact ⟨⟨_, rfl⟩, rfl⟩

/-- Witness for C5 at concrete oracle outcomes: a successful encode with
an empty OGG file returns an error and keeps the WAV. -/
theorem encode_and_cleanup_guards_wav_witness :
    (∃ msg,
      (encode_and_cleanup
        ⟨Except.ok (), some 0, Except.ok ()⟩).result = Except.error msg) ∧
    (encode_and_cleanup
        ⟨Except.ok (), some 0, Except.ok ()⟩).wavRemoved = false :=
  (encode_and_cleanup_guards_wav
    ⟨Except.ok (), some 0, Except.ok ()⟩).2.2.2 rfl

/-! ## PipeWire target resolution (src/audio/pipewire_capture.rs)

`wpctl` output is embedded as the list of its lines.  The
character-level scanning of the Rust code is translated to structural
functions on `List Char`; Rust `trim`, `trim_start` and
`split_whitespace` recognise Unicode whitespace, embedded via
`Char.isWhitespace`.  The two external `wpctl` invocations are oracle
fields holding their stdout lines when the command succeeded. -/

/-- `TargetKind`. -/
inductive TargetKind where
  | system
  | microphone
deriving DecidableEq, Repr

/-- `TargetResolutionMethod`. -/
inductive TargetResolutionMethod where
  | wpctlInspect
  | wpctlStatus
  | fallbackAlias
deriving DecidableEq, Repr

/-- `ResolvedCaptureTarget`. -/
structure ResolvedCaptureTarget where
  kind : TargetKind
  target : String
  method : TargetResolutionMethod
deriving DecidableEq, Repr

/-- `SYSTEM_TARGET_FALLBACK`. -/
def SYSTEM_TARGET_FALLBACK : String := "@DEFAULT_AUDIO_SINK.monitor"

/-- `MICROPHONE_TARGET_FALLBACK`. -/
def MICROPHONE_TARGET_FALLBACK : String := "@DEFAULT_AUDIO_SOURCE@"

/-- Rust `str::trim` on a character list. -/
def trimChars (l : List Char) : List Char :=
  ((l.dropWhile Char.isWhitespace).reverse.dropWhile Char.isWhitespace).reverse

/-- Rust `str::ends_with` on character lists. -/
def endsWithChars (l pat : List Char) : Bool := pat.isSuffixOf l

/-- `parse_wpctl_status_node_line` on a trimmed line: a `*` anywhere
marks the default; the first ASCII digit run is the id; after optional
whitespace a literal dot must follow, and the next
whitespace-separated token is the node name. -/
def parse_wpctl_status_node_line (line : List Char) :
    Option (String × String × Bool) :=
  let is_default := line.contains '*'
  match line.dropWhile (fun c => ¬ c.isDigit) with
  | [] => none
  | c :: rest =>
    let id := (c :: rest).takeWhile Char.isDigit
    let after_id :=
      ((c :: rest).dropWhile Char.isDigit).dropWhile Char.isWhitespace
    match after_id with
    | '.' :: after_dot0 =>
      let after_dot := after_dot0.dropWhile Char.isWhitespace
      match after_dot.takeWhile (fun c => ¬ c.isWhitespace) with
      | [] => none
      | d :: name_rest =>
          some (String.mk id, String.mk (d :: name_rest), is_default)
    | _ => none

/-- Suffix of the line after the first occurrence of `key`, as in Rust
`str::split_once` keeping only the part after the separator. -/
def afterFirstOccur (key : List Char) : List Char → Option (List Char)
  | [] => if key.isPrefixOf ([] : List Char) then some [] else none
  | c :: rest =>
      if key.isPrefixOf (c :: rest) then some ((c :: rest).drop key.length)
      else afterFirstOccur key rest

/-- `parse_wpctl_configured_default_name`: first line containing the
kind's settings key, taking the first whitespace-separated token after
the key. -/
def parse_wpctl_configured_default_name (output : List String)
    (kind : TargetKind) : Option String :=
  let key := match kind with
    | TargetKind.system => "Audio/Sink"
    | TargetKind.microphone => "Audio/Source"
  output.findSome? (fun line =>
    match afterFirstOccur key.toList (trimChars line.toList) with
    | none => none
    | some after_key =>
      match (after_key.dropWhile Char.isWhitespace).takeWhile
          (fun c => ¬ c.isWhitespace) with
      | [] => none
      | c :: rest => some (String.mk (c :: rest)))

/-- The section label scanned for by
`parse_wpctl_status_default_node_id`. -/
def sectionLabel : TargetKind → String
  | TargetKind.system => "Sinks:"
  | TargetKind.microphone => "Sources:"

/-- The node-collection loop of `parse_wpctl_status_default_node_id`:
a line ending with the section label (re)enters the section; outside
the section lines are skipped; inside it, a line ending with
`Filters:` or `Streams:` stops the scan, and every parseable node line
is collected in order. -/
def wpctlCollectNodes (label : String) :
    List String → Bool → List (String × String × Bool)
  | [], _ => []
  | line :: rest, in_section =>
    let trimmed := trimChars line.toList
    if endsWithChars trimmed label.toList then
      wpctlCollectNodes label rest true
    else if !in_section then wpctlCollectNodes label rest in_section
    else if endsWithChars trimmed "Filters:".toList ||
        endsWithChars trimmed "Streams:".toList then []
    else
      match parse_wpctl_status_node_line trimmed with
      | none => wpctlCollectNodes label rest in_section
      | some node => node :: wpctlCollectNodes label rest in_section

/-- `parse_wpctl_status_default_node_id`: prefer the node flagged
default, then the node whose name equals the configured default name,
then the first listed node. -/
def parse_wpctl_status_default_node_id (output : List String)
    (kind : TargetKind) : Option String :=
  let nodes := wpctlCollectNodes (sectionLabel kind) output false
  match nodes.find? (fun n => n.2.2) with
  | some n => some n.1
  | none =>
    match parse_wpctl_configured_default_name output kind with
    | some configured_name =>
      match nodes.find? (fun n => n.2.1 == configured_name) with
      | some n => some n.1
      | none => nodes.head?.map (fun n => n.1)
    | none => nodes.head?.map (fun n => n.1)

/-- `parse_wpctl_node_id`: first line of the form `id <digits>,…`
(everything before the first comma after the `id ` marker, trimmed,
all ASCII digits). -/
def parse_wpctl_node_id (output : List String) : Option String :=
  output.findSome? (fun line =>
    match trimChars line.toList with
    | 'i' :: 'd' :: ' ' :: after =>
      let id_part := trimChars (after.takeWhile (fun c => c ≠ ','))
      if id_part.all Char.isDigit then some (String.mk id_part) else none
    | _ => none)

/-- Oracle for the two external `wpctl` invocations: each field is
`some` stdout-lines when the command ran and exited successfully,
`none` otherwise. -/
structure ResolveEnv where
  inspectOutput : Option (List String)
  statusOutput : Option (List String)
deriving Repr

/-- `resolve_wpctl_node_id`: parse the successful `wpctl inspect`
output. -/
def resolve_wpctl_node_id (env : ResolveEnv) : Option String :=
  env.inspectOutput.bind parse_wpctl_node_id

/-- `resolve_wpctl_default_node_id`: parse the successful
`wpctl status -n` output. -/
def resolve_wpctl_default_node_id (env : ResolveEnv) (kind : TargetKind) :
    Option String :=
  env.statusOutput.bind
    (fun out => parse_wpctl_status_default_node_id out kind)

/-- `resolve_target`: inspect by alias first, then the status listing,
then the static alias fallback. -/
def resolve_target (env : ResolveEnv) (kind : TargetKind) :
    ResolvedCaptureTarget :=
  match resolve_wpctl_node_id env with
  | some id => ⟨kind, id, TargetResolutionMethod.wpctlInspect⟩
  | none =>
    match resolve_wpctl_default_node_id env kind with
    | some id => ⟨kind, id, TargetResolutionMethod.wpctlStatus⟩
    | none =>
      ⟨kind,
        match kind with
        | TargetKind.system => SYSTEM_TARGET_FALLBACK
        | TargetKind.microphone => MICROPHONE_TARGET_FALLBACK,
        TargetResolutionMethod.fallbackAlias⟩

/-- C3 counterexample: a listing whose only sink line carries no
default marker and no configured-name section still resolves to that
device's id via the wpctl-status method — not to the static alias via
the fallback method as claimed.  `parse_wpctl_status_default_node_id`
falls back to the first listed node before giving up. -/
theorem resolve_target_first_node_refutes :
    wpctlCollectNodes (sectionLabel TargetKind.system)
        ["Sinks:", " 10. foo"] false = [("10", "foo", false)] ∧
    parse_wpctl_configured_default_name ["Sinks:", " 10. foo"]
        TargetKind.system = none ∧
    resolve_target ⟨none, some ["Sinks:", " 10. foo"]⟩ TargetKind.system =
      ⟨TargetKind.system, "10", TargetResolutionMethod.wpctlStatus⟩ ∧
    resolve_target ⟨none, some ["Sinks:", " 10. foo"]⟩ TargetKind.system ≠
      ⟨TargetKind.system, SYSTEM_TARGET_FALLBACK,
        TargetResolutionMethod.fallbackAlias⟩ := by
  refine ⟨by decide, by decide, by decide, by decide⟩

/-- C3 (amended): when the inspect step fails and the status listing
has no default-marked node and no node whose name equals the configured
default name, resolution returns the first listed node id via the
wpctl-status method if the section lists any parseable device, and the
static alias via the fallback method only when it lists none. -/
theorem resolve_target_status_chain (lines : List String) (kind : TargetKind)
    (h1 : (wpctlCollectNodes (sectionLabel kind) lines false).find?
        (fun n => n.2.2) = none)
    (h2 : ∀ cfg, parse_wpctl_configured_default_name lines kind = some cfg →
        (wpctlCollectNodes (sectionLabel kind) lines false).find?
          (fun n => n.2.1 == cfg) = none) :
    (wpctlCollectNodes (sectionLabel kind) lines false = [] →
      resolve_target ⟨none, some lines⟩ kind =
        ⟨kind,
          match kind with
          | TargetKind.system => SYSTEM_TARGET_FALLBACK
          | TargetKind.microphone => MICROPHONE_TARGET_FALLBACK,
          TargetResolutionMethod.fallbackAlias⟩)
    ∧ (∀ n ns, wpctlCollectNodes (sectionLabel kind) lines false = n :: ns →
        resolve_target ⟨none, some lines⟩ kind =
          ⟨kind, n.1, TargetResolutionMethod.wpctlStatus⟩) := by
  have hparse : parse_wpctl_status_default_node_id lines kind =
      (wpctlCollectNodes (sectionLabel kind) lines false).head?.map
        (fun n => n.1) := by
    simp only [parse_wpctl_status_default_node_id, h1]
    cases hcfg : parse_wpctl_configured_default_name lines kind with
    | none => rfl
    | some cfg => simp [h2 cfg hcfg]
  constructor
  · intro hnil
    simp [resolve_target, resolve_wpctl_node_id,
      resolve_wpctl_default_node_id, Option.bind, hparse, hnil]
  · intro n ns hcons
    simp [resolve_target, resolve_wpctl_node_id,
      resolve_wpctl_default_node_id, Option.bind, hparse, hcons]

/-- Witness for the amended C3 theorem at the concrete listing with one
unmarked sink. -/
theorem resolve_target_status_chain_witness :
    resolve_target ⟨none, some ["Sinks:", " 10. foo"]⟩ TargetKind.system =
      ⟨TargetKind.system, ("10", "foo", false).1,
        TargetResolutionMethod.wpctlStatus⟩ :=
  (resolve_target_status_chain ["Sinks:", " 10. foo"] TargetKind.system
    (by decide)
    (fun cfg h => by
      rw [show parse_wpctl_configured_default_name ["Sinks:", " 10. foo"]
          TargetKind.system = none by decide] at h
      cases h)).2
    ("10", "foo", false) [] (by decide)

end Minutes
